import Mathlib

/-!
Verification development for the robot-dog command execution stack
(`dog_llm_exec.py`, `dog_llm_exec_server.py`, `SendToCommand.py`,
`listener.py`, `udp_command.py`, `sportspeed.py`).

The Python source is shallowly embedded: pure functions become Lean
functions, byte buffers become `List Nat`, Python `int` becomes `Int`
(with explicit two's-complement wrapping where `struct.pack`/`unpack`
applies), Python `float` arithmetic is modelled with exact rationals,
and code that can raise returns an explicit error value.  Bounded
polling waits (wait-until-predicate with timeout) are modelled as
consuming one decisive telemetry observation from an environment
oracle; the outcome of the wait is the predicate's value at that
observation.
-/

namespace DogLLMExec


/-! ## Protocol codec (`SendToCommand.send_command`, `udp_command.RobotState`) -/

/-- Two's-complement 32-bit image of an integer, as used by `struct.pack('<i', n)`. -/
def toUnsigned32 (n : Int) : Nat := (n % 4294967296).toNat

/-- The four little-endian bytes of a 32-bit unsigned value. -/
def bytesOfU32 (u : Nat) : List Nat :=
  [u % 256, u / 256 % 256, u / 65536 % 256, u / 16777216 % 256]

/-- `struct.pack('<i', n)`: one signed 32-bit field, little-endian. -/
def packInt32LE (n : Int) : List Nat := bytesOfU32 (toUnsigned32 n)

/-- Little-endian unsigned 32-bit read at byte offset `off`
(`struct.unpack('<I', data[off:off+4])`). -/
def u32at (bs : List Nat) (off : Nat) : Nat :=
  bs.getD off 0 + 256 * bs.getD (off + 1) 0 + 65536 * bs.getD (off + 2) 0
    + 16777216 * bs.getD (off + 3) 0

/-- Reinterpret an unsigned 32-bit value as signed (`struct.unpack('<i', ...)`). -/
def toSigned32 (u : Nat) : Int :=
  if u < 2147483648 then (u : Int) else (u : Int) - 4294967296

/-- `send_command`: `struct.pack('<3i', code, parameters_size, type_)` —
the 12-byte command frame, fields in order (code, param, kind), little-endian. -/
def send_command (code param kind : Int) : List Nat :=
  packInt32LE code ++ packInt32LE param ++ packInt32LE kind

/-- Decoding a 12-byte command frame as three little-endian signed 32-bit
integers (the inverse reading of `struct.pack('<3i', ...)`). -/
def decode_command (bs : List Nat) : Int × Int × Int :=
  (toSigned32 (u32at bs 0), toSigned32 (u32at bs 4), toSigned32 (u32at bs 8))

/-! ## State classification (`DogCommandExecutor._classify_state`) -/

/-- `DogState` constants. -/
def DogState.STANDING : String := "standing"
def DogState.LYING : String := "lying"
def DogState.UNKNOWN : String := "unknown"

/-- `_classify_state(st)`: classify a state vector from its `basic_state`
head field.  6/20/25/5 are standing, 1 is lying, everything else unknown;
an empty vector is unknown. -/
def classify_state (st : List Int) : String :=
  if st.length ≥ 1 then
    let basic_state := st.headD 0
    if basic_state = 6 then DogState.STANDING
    else if basic_state = 1 then DogState.LYING
    else if basic_state = 20 then DogState.STANDING
    else if basic_state = 25 then DogState.STANDING
    else if basic_state = 5 then DogState.STANDING
    else DogState.UNKNOWN
  else DogState.UNKNOWN

/-! ## Telemetry listener (`robotstatuswatcher.listener.status_listener`)

`status_listener` loops on `recvfrom`; the per-datagram decision of whether
the received datagram publishes a new state vector (and which one) is the
body of that loop, embedded here as a function of the datagram bytes. -/

/-- The state vector published from a 212-byte robot-state frame:
`[robot_basic_state, robot_gait_state, robot_motion_state]`, where
`basic_state`/`gait_state` are unsigned (`<I` at bytes 12 and 16) and
`motion_state` is signed (`<i` at byte 176). -/
def robotStateVector (bs : List Nat) : List Int :=
  [(u32at bs 12 : Int), (u32at bs 16 : Int), toSigned32 (u32at bs 176)]

/-- One iteration of `status_listener` on a received datagram: a 108-byte
datagram is a joint-state frame (decoded, never published); a 212-byte
datagram publishes the robot-state vector exactly when its opcode is 2305
and its `basic_state` field is non-zero; any other length is ignored. -/
def status_listener_frame (bs : List Nat) : Option (List Int) :=
  if bs.length = 108 then
    none
  else if bs.length = 212 then
    if u32at bs 0 = 2305 ∧ u32at bs 12 ≠ 0 then some (robotStateVector bs) else none
  else none

/-! ## Log buffer (`dog_llm_exec_server.LogCollector`) -/

/-- `LogCollector.append`: append a line, then trim to the most recent
1000 lines (`self._logs = self._logs[-self._max_logs:]`). -/
def log_append (logs : List String) (entry : String) : List String :=
  let logs' := logs ++ [entry]
  if logs'.length > 1000 then logs'.drop (logs'.length - 1000) else logs'

/-- `LogCollector.get_logs(since)`: `self._logs[since:]`. -/
def get_logs (logs : List String) (since : Nat) : List String := logs.drop since

/-- The `GET /logs?since=N` handler body: `(logs, count, since)` where
`logs = collector.get_logs(since)` and `count = len(logs)`. -/
def logs_response (logs : List String) (since : Nat) : List String × Nat × Nat :=
  let ls := get_logs logs since
  (ls, ls.length, since)

/-! ## HTTP `/execute` handler (`Handler._read_json`, `Handler.do_POST`)

The request body is modelled as its list of characters.  `json.loads` is
Python standard-library code, abstracted as a `parse` function returning
`none` exactly when `json.loads` would raise; the parsed value is a
`PyJson` tree whose Python truthiness `if not payload` tests. -/

/-- A parsed JSON value, as produced by `json.loads`. -/
inductive PyJson where
  | null
  | bool (b : Bool)
  | num (n : Int)
  | str (s : String)
  | arr (elems : List PyJson)
  | obj (fields : List (String × PyJson))

/-- Python truthiness of a parsed JSON value (`if not payload`). -/
def PyJson.truthy : PyJson → Bool
  | .null => false
  | .bool b => b
  | .num n => n ≠ 0
  | .str s => s ≠ ""
  | .arr elems => ¬elems.isEmpty
  | .obj fields => ¬fields.isEmpty

/-- Python whitespace characters for `str.strip()`. -/
def isPySpace (c : Char) : Bool :=
  c = ' ' ∨ c = '\t' ∨ c = '\n' ∨ c = '\r' ∨ c = '\x0b' ∨ c = '\x0c'

/-- `str.strip()` on a character list. -/
def pyStrip (cs : List Char) : List Char :=
  ((cs.dropWhile isPySpace).reverse.dropWhile isPySpace).reverse

/-- `_read_json`'s quote unwrapping: strip one pair of outer single quotes
(`if len(text) >= 2 and text[0] == "'" and text[-1] == "'"`). -/
def stripOuterQuotes (cs : List Char) : List Char :=
  if cs.length ≥ 2 ∧ cs.head? = some '\'' ∧ cs.getLast? = some '\'' then
    (cs.drop 1).dropLast
  else cs

/-- `_read_json`: an empty body yields `{}`; otherwise the stripped,
unquoted text goes to `json.loads`, whose failure is an exception
(`.error`). -/
def read_json (parse : List Char → Option PyJson) (raw : List Char) :
    Except String PyJson :=
  if raw.isEmpty then .ok (.obj [])
  else
    match parse (stripOuterQuotes (pyStrip raw)) with
    | some v => .ok v
    | none => .error "json.loads raised"

/-- The HTTP response to `POST /execute`, reduced to the fields the claim
speaks about: status code, the `ok` flag, and whether a `task_id` is
returned. -/
structure ExecuteResponse where
  status : Nat
  okField : Bool
  hasTaskId : Bool
  deriving DecidableEq

/-- `do_POST` on path `/execute`: a falsy payload answers 400; a truthy one
is submitted and answers 200 with `ok`/`task_id`; any exception escaping
`_read_json` (in particular a `json.loads` failure on a non-empty body) is
caught by the blanket handler, which answers 500. -/
def do_POST_execute (parse : List Char → Option PyJson) (raw : List Char) :
    ExecuteResponse :=
  match read_json parse raw with
  | .error _ => ⟨500, false, false⟩
  | .ok payload => if payload.truthy then ⟨200, true, true⟩ else ⟨400, false, false⟩

/-- Modelled from the spec: `json.loads` itself is Python standard-library
code not present in `src/`; its behavior is recorded at the concrete inputs
this development evaluates.  The text `notjson` is not valid JSON, so
`json.loads` raises (`none`); the text `\x7b"actions":[]\x7d` parses to the
one-field object mapping `actions` to an empty array. -/
def jsonLoadsModel (cs : List Char) : Option PyJson :=
  if cs = '\x7b' :: ("\x22actions\x22:[]".toList ++ ['\x7d']) then
    some (.obj [("actions", .arr [])])
  else none

/-! ## Task orchestration service (`CommandService._loop`, `TaskStore`)

The service is modelled as a labeled transition system.  Task ids are
naturals; `status` is the task table; `queue` the pending-id FIFO; `procs`
the spawn history of worker processes `(task id, alive)`; `current` the
dispatch loop's `_current_proc`/`_current_task_id`; `resultQ` the worker
result queue.  Each transition is one atomic mutation the Python code
performs under its locks. -/

inductive TStatus where
  | queued | running | done | failed | cancelled
  deriving DecidableEq

structure Svc where
  status : Nat → Option TStatus
  queue : List Nat
  procs : List (Nat × Bool)
  current : Option Nat
  resultQ : List (Nat × TStatus)

def initSvc : Svc := ⟨fun _ => none, [], [], none, []⟩

/-- `TaskStore.update`: mutate a task only if it exists. -/
def updStatus (f : Nat → Option TStatus) (t : Nat) (v : TStatus) :
    Nat → Option TStatus :=
  fun x => if x = t then (if (f t).isSome then some v else none) else f x

/-- `TaskStore.cancel_all_queued`: every queued task becomes cancelled. -/
def cancelQueued (f : Nat → Option TStatus) : Nat → Option TStatus :=
  fun x => if f x = some .queued then some .cancelled else f x

/-- A worker process exiting (or being terminated by `emergency_stop`). -/
def markDead (procs : List (Nat × Bool)) (t : Nat) : List (Nat × Bool) :=
  procs.map (fun p => if p.1 = t then (p.1, false) else p)

inductive SvcLabel where
  | submit | post | die | drain | reclaim | popStart | popSkip | estopCancel
  deriving DecidableEq

/-- The service's atomic transitions:
`submit` creates a fresh queued task and enqueues its id;
`post` is the worker putting its result message on the result queue;
`die` is a worker process exiting or being terminated;
`drain` is `_drain_worker_results` applying one result message;
`reclaim` is the loop reclaiming a dead current worker (`failed` if no
result was posted while running);
`popStart`/`popSkip` are the loop popping the next queued id — only when
`_current_proc is None` — and spawning it (or skipping a non-queued id);
`estopCancel` is `emergency_stop` cancelling every queued task and
draining the submission queue. -/
inductive SvcStep : Svc → SvcLabel → Svc → Prop where
  | submit (s : Svc) (t : Nat) :
      s.status t = none →
      SvcStep s .submit
        { s with status := fun x => if x = t then some .queued else s.status x,
                 queue := s.queue ++ [t] }
  | post (s : Svc) (t : Nat) (st : TStatus) :
      s.current = some t → (st = .done ∨ st = .failed) →
      SvcStep s .post { s with resultQ := s.resultQ ++ [(t, st)] }
  | die (s : Svc) (t : Nat) :
      (t, true) ∈ s.procs →
      SvcStep s .die { s with procs := markDead s.procs t }
  | drain (s : Svc) (t : Nat) (st : TStatus) (rest : List (Nat × TStatus)) :
      s.resultQ = (t, st) :: rest →
      SvcStep s .drain { s with status := updStatus s.status t st, resultQ := rest }
  | reclaim (s : Svc) (t : Nat) :
      s.current = some t → (t, true) ∉ s.procs →
      SvcStep s .reclaim
        { s with
          status := if s.status t = some .running then updStatus s.status t .failed
                    else s.status,
          current := none }
  | popStart (s : Svc) (t : Nat) (rest : List Nat) :
      s.current = none → s.queue = t :: rest → s.status t = some .queued →
      SvcStep s .popStart
        { s with queue := rest, status := updStatus s.status t .running,
                 procs := s.procs ++ [(t, true)], current := some t }
  | popSkip (s : Svc) (t : Nat) (rest : List Nat) :
      s.current = none → s.queue = t :: rest → s.status t ≠ some .queued →
      SvcStep s .popSkip { s with queue := rest }
  | estopCancel (s : Svc) :
      SvcStep s .estopCancel { s with status := cancelQueued s.status, queue := [] }

inductive SvcReachable : Svc → Prop where
  | init : SvcReachable initSvc
  | step {s : Svc} {l : SvcLabel} {s' : Svc} :
      SvcReachable s → SvcStep s l s' → SvcReachable s'

/-- The inductive invariant: a running task is the current one; an alive
worker is the current one; each task spawns at most one worker; spawned
tasks are past `queued`; result messages carry only terminal statuses. -/
def SvcInv (s : Svc) : Prop :=
  (∀ t, s.status t = some .running → s.current = some t)
    ∧ (∀ t b, (t, b) ∈ s.procs → b = true → s.current = some t)
    ∧ (s.procs.map Prod.fst).Nodup
    ∧ (∀ t b, (t, b) ∈ s.procs → s.status t ≠ none ∧ s.status t ≠ some .queued)
    ∧ (∀ t st, (t, st) ∈ s.resultQ → st = .done ∨ st = .failed)

/-! ## Command executor (`dog_llm_exec.DogCommandExecutor`)

Observable behavior is a trace of events: UDP command frames sent
(`_perform_action`), the fixed-rate repeated sends of `MyRepeatThread`
(collapsed to one event, since the thread swallows its own exceptions),
sleeps, and the bounded telemetry waits.  The environment supplies the
`k`-th telemetry observation and whether the `k`-th executor send raises
an `OSError`; each bounded polling wait consumes one decisive observation
whose predicate value is the wait's outcome. -/

inductive Ev where
  | send (code : Int) (param : Int)
  | repeatSend (code : Int) (val : Int) (secs : ℚ)
  | sleepFor (secs : ℚ)
  | waitMotion (timeout : ℚ)
  | waitState (target : String) (timeout : ℚ)
  | waitExec (target : List Int) (timeout : ℚ)
  | waitCompletion (target : List Int) (timeout : ℚ)
  | refreshEv (timeout : ℚ)
  | stopBurst (secs : ℚ)
  deriving DecidableEq

structure Env where
  telemetry : Nat → Option (List Int)
  sendFault : Nat → Option String

/-- Executor-visible state: telemetry read counter, send counter,
`self._cur_state`, and the event trace. -/
structure ExSt where
  tReads : Nat
  sends : Nat
  curState : String
  trace : List Ev
  deriving DecidableEq

def initExSt : ExSt := ⟨0, 0, DogState.UNKNOWN, []⟩

def pushEv (s : ExSt) (e : Ev) : ExSt := { s with trace := s.trace ++ [e] }

/-- `_perform_action`: one 12-byte frame on the wire, or an exception if the
socket faults (`some msg`). -/
def performAction (env : Env) (code : Int) (param : Int) (s : ExSt) :
    ExSt × Option String :=
  match env.sendFault s.sends with
  | none => (pushEv { s with sends := s.sends + 1 } (.send code param), none)
  | some msg => ({ s with sends := s.sends + 1 }, some msg)

/-- `RobotStatusWatcher.get_latest` (also the direct `status_listener`
reads): the next telemetry observation. -/
def readLatest (env : Env) (s : ExSt) : Option (List Int) × ExSt :=
  (env.telemetry s.tReads, { s with tReads := s.tReads + 1 })

/-- `RobotStatusWatcher.wait_until(pred, timeout)`: the bounded poll loop,
modelled as one decisive observation. -/
def waitUntil (env : Env) (pred : List Int → Bool) (s : ExSt) : Bool × ExSt :=
  let (ob, s') := readLatest env s
  (match ob with | some v => pred v | none => false, s')

/-- `_refresh_state`: wait for a length-3 vector, snapshot it, classify it
into `self._cur_state`. -/
def refreshState (env : Env) (timeout : ℚ) (s : ExSt) : ExSt :=
  let s := pushEv s (.refreshEv timeout)
  let (ok, s) := waitUntil env (fun v => decide (3 ≤ v.length)) s
  let (latest, s) := if ok then readLatest env s else (none, s)
  { s with curState := match latest with
      | some v => classify_state v
      | none => DogState.UNKNOWN }

/-- `_wait_motion_stable`: wait for `motion_state == 0`; on timeout sleep
1 s and continue. -/
def waitMotionStable (env : Env) (timeout : ℚ) (s : ExSt) : Bool × ExSt :=
  let s := pushEv s (.waitMotion timeout)
  let (ok, s) := waitUntil env (fun v => decide (3 ≤ v.length ∧ v.getD 2 0 = 0)) s
  (ok, if ok then s else pushEv s (.sleepFor 1))

/-- `_wait_for_state`: wait for the classification to reach `target`;
success records it in `self._cur_state`. -/
def waitForState (env : Env) (target : String) (timeout : ℚ) (s : ExSt) :
    Bool × ExSt :=
  let s := pushEv s (.waitState target timeout)
  let (ok, s) := waitUntil env (fun v => decide (classify_state v = target)) s
  (ok, if ok then { s with curState := target } else s)

/-- `_wait_for_execution_state`: wait for the exact 3-field execution
vector. -/
def waitForExecutionState (env : Env) (target : List Int) (timeout : ℚ)
    (s : ExSt) : Bool × ExSt :=
  let s := pushEv s (.waitExec target timeout)
  waitUntil env (fun v => decide (3 ≤ v.length ∧ v.getD 0 0 = target.getD 0 0
    ∧ v.getD 1 0 = target.getD 1 0 ∧ v.getD 2 0 = target.getD 2 0)) s

/-- `_wait_for_action_completion`: wait for the state to leave the execution
state; for the greet action (`[20,0,0]`) then wait for the stable standing
vector (falling back to a STANDING classification of the observed state);
for other actions wait for motion to settle.  On timeout, a final settle
wait and `false`. -/
def waitForActionCompletion (env : Env) (execState : List Int) (timeout : ℚ)
    (s : ExSt) : Bool × ExSt :=
  let s := pushEv s (.waitCompletion execState timeout)
  let s := pushEv s (.sleepFor (1/2))
  let (ob, s) := readLatest env s
  match ob with
  | some v =>
    if 3 ≤ v.length ∧ ¬(v.getD 0 0 = execState.getD 0 0
        ∧ v.getD 1 0 = execState.getD 1 0 ∧ v.getD 2 0 = execState.getD 2 0) then
      if execState = [20, 0, 0] then
        let (ok2, s) := waitUntil env
          (fun w => decide (3 ≤ w.length ∧ w.getD 0 0 = 6 ∧ w.getD 2 0 = 0)) s
        if ok2 then (true, s)
        else if classify_state v = DogState.STANDING then (true, s)
        else
          let (_, s) := waitMotionStable env 3 s
          (false, s)
      else
        let (ok2, s) := waitMotionStable env 5 s
        if ok2 then (true, s)
        else
          let (_, s) := waitMotionStable env 3 s
          (false, s)
    else
      let (_, s) := waitMotionStable env 3 s
      (false, s)
  | none =>
    let (_, s) := waitMotionStable env 3 s
    (false, s)

/-- One iteration of `_ensure_state`'s toggle/confirm loop: send the
stand/lie toggle (a send fault logs and breaks), wait for the target
classification; the returned flag is "stop retrying". -/
def ensureStateAttempt (env : Env) (target : String) (timeout : ℚ) (s : ExSt) :
    Bool × ExSt :=
  match performAction env 0x21010202 0 s with
  | (s, some _) => (true, s)
  | (s, none) =>
    let s := pushEv s (.sleepFor (1/2))
    let (ok, s) := waitForState env target timeout s
    if ok then
      let (_, s) := waitMotionStable env 3 s
      (true, s)
    else
      let (_, s) := waitMotionStable env 2 s
      (false, s)

/-- `_ensure_state`: refresh; if already at the target, wait out the
25/5 transitional standing states or settle; otherwise recover from
UNKNOWN (zero command, then toggle), settle, and run the toggle/confirm
attempt up to 2 times.  Never raises; failure to confirm merely logs and
execution proceeds. -/
def ensureState (env : Env) (target : String) (timeout : ℚ) (s : ExSt) : ExSt :=
  let s := refreshState env 1 s
  if s.curState = target then
    let (latest, s) := readLatest env s
    match latest with
    | some v =>
      if 3 ≤ v.length then
        if (v.getD 0 0 = 25 ∨ v.getD 0 0 = 5) ∧ target = DogState.STANDING then
          let (ok, s) := waitUntil env
            (fun w => decide (3 ≤ w.length ∧ w.getD 0 0 = 6 ∧ w.getD 2 0 = 0)) s
          if ok then { s with curState := DogState.STANDING } else s
        else (waitMotionStable env 2 s).2
      else s
    | none => s
  else
    let s :=
      if s.curState = DogState.UNKNOWN then
        match performAction env 0x21010C05 0 s with
        | (s, some _) => s
        | (s, none) =>
          let s := pushEv s (.sleepFor (3/2))
          let s := refreshState env 3 s
          if s.curState = DogState.UNKNOWN then
            match performAction env 0x21010202 0 s with
            | (s, some _) => s
            | (s, none) =>
              let s := pushEv s (.sleepFor 1)
              refreshState env 3 s
          else s
      else s
    let (_, s) := waitMotionStable env 4 s
    let (done1, s) := ensureStateAttempt env target timeout s
    if done1 then s
    else (ensureStateAttempt env target timeout s).2

/-- `_exec_moonwalk`: only start from the exact standing-rest vector
`[6,0,0]`; send the moonwalk opcode, wait up to 8 s for the execution
vector `[6,12,1]`, then dwell 4 s and send the stand toggle as a finisher.
Every exception is swallowed. -/
def execMoonwalk (env : Env) (s : ExSt) : ExSt :=
  let (ob, s) := readLatest env s
  match ob with
  | some v =>
    if 3 ≤ v.length ∧ v.getD 0 0 = 6 ∧ v.getD 1 0 = 0 ∧ v.getD 2 0 = 0 then
      match performAction env 0x2101030C 0 s with
      | (s, some _) => s
      | (s, none) =>
        let s := pushEv s (.waitExec [6, 12, 1] 8)
        let (entered, s) := waitUntil env
          (fun w => decide (3 ≤ w.length ∧ w.getD 0 0 = 6 ∧ w.getD 1 0 = 12
            ∧ w.getD 2 0 = 1)) s
        if entered then
          let s := pushEv s (.sleepFor 4)
          match performAction env 0x21010202 0 s with
          | (s, some _) => s
          | (s, none) => refreshState env 1 s
        else s
    else s
  | none => s

/-- `_send_stop_motion`: a fixed-rate burst of x/y/yaw stop frames for
`duration` seconds and a 1 s settle sleep; the burst is modelled as one
round of the three sends.  A socket fault raises out of it. -/
def sendStopMotion (env : Env) (duration : ℚ) (s : ExSt) : ExSt × Option String :=
  let s := pushEv s (.stopBurst duration)
  match performAction env 0x21010130 0 s with
  | (s, some e) => (s, some e)
  | (s, none) =>
    match performAction env 0x21010131 0 s with
    | (s, some e) => (s, some e)
    | (s, none) =>
      match performAction env 0x21010135 0 s with
      | (s, some e) => (s, some e)
      | (s, none) => (pushEv (pushEv s (.sleepFor (1/10))) (.sleepFor 1), none)

/-- `_run_repeat_action`: a `MyRepeatThread` sending `code`/`val` every
100 ms for `seconds`; the thread swallows its own exceptions, so it never
raises into the executor. -/
def runRepeatAction (code : Int) (seconds : ℚ) (val : Int) (s : ExSt) : ExSt :=
  pushEv s (.repeatSend code val seconds)

/-! ## Speed calibration (`speeds.sportspeed`); Python float constants are
modelled as exact rationals. -/

def goStraightGear (g : Nat) : Option Int :=
  [(1, (7000 : Int)), (2, 7500), (3, 8000), (4, 8700), (5, 9000), (6, 10500)].lookup g

/-- `go_straight(long, speedgear)`: duration/magnitude for a straight move;
an unknown gear raises `KeyError`, a zero calibrated speed would raise
`ZeroDivisionError`. -/
def go_straight (long : ℚ) (speedgear : Nat) : Except String (ℚ × Int) :=
  match goStraightGear speedgear with
  | none => .error "KeyError"
  | some v0 =>
    if long < 0 then
      let val : Int := -v0
      let speed : ℚ := -(15059 / 10 ^ 12 : ℚ) * (val : ℚ) ^ 2
        - (41944 / 10 ^ 8 : ℚ) * (val : ℚ) - 21804 / 10 ^ 4
      if speed = 0 then .error "float division by zero"
      else .ok (|long / speed|, val)
    else
      let val : Int := v0
      let speed : ℚ := -(7237 / 10 ^ 12 : ℚ) * (val : ℚ) ^ 2
        + (2933 / 10 ^ 7 : ℚ) * (val : ℚ) - 1643 / 10 ^ 3
      if speed = 0 then .error "float division by zero"
      else .ok (long / speed, val)

def translateGear (g : Nat) : Option Int :=
  [(1, (14000 : Int)), (2, 18000), (3, 21000), (4, 24000), (5, 27000), (6, 34000)].lookup g

/-- `translate_left_and_right(long, speedgear)`. -/
def translate_left_and_right (long : ℚ) (speedgear : Nat) : Except String (ℚ × Int) :=
  match translateGear speedgear with
  | none => .error "KeyError"
  | some v0 =>
    if long < 0 then
      let val : Int := -v0
      let speed : ℚ := -(16 / 10 ^ 6 : ℚ) * (val : ℚ) - 2256 / 10 ^ 4
      if speed = 0 then .error "float division by zero"
      else .ok (|long / speed|, val)
    else
      let val : Int := v0
      let speed : ℚ := (1517 / 10 ^ 8 : ℚ) * (val : ℚ) - 1748 / 10 ^ 4
      if speed = 0 then .error "float division by zero"
      else .ok (long / speed, val)

/-- Python `%` on floats (divisor positive here): `a - b * floor(a / b)`. -/
def qmod (a b : ℚ) : ℚ := a - b * ((a / b).floor : ℚ)

def rotationKeys : List ℚ :=
  [0, 15, 30, 45, 60, 75, 90, 105, 120, 135, 150, 165, 167, 185, 195, 210,
   225, 240, 255, 270, 285, 300, 315, 330, 345, 360]

def rotationMap : List (ℚ × ℚ) :=
  [(0, 0), (15, 1/10), (30, 2/10), (45, 53/100), (60, 6/10), (75, 9/10),
   (90, 13/10), (105, 15/10), (120, 19/10), (135, 22/10), (150, 23/10),
   (165, 25/10), (167, 28/10), (185, 29/10), (195, 31/10), (210, 34/10),
   (225, 37/10), (240, 4), (255, 43/10), (270, 45/10), (285, 47/10),
   (300, 5), (315, 53/10), (330, 56/10), (345, 58/10), (360, 59/10)]

/-- `find_closest_output` inside `revolve_left_and_right`: fold an input
above 360° by `input / (input % 360)` (a zero remainder raises
`ZeroDivisionError`), then pick the first key minimizing the distance and
return its mapped duration. -/
def findClosestOutput (input0 : ℚ) : Except String ℚ :=
  let adj : Except String ℚ :=
    if input0 > 360 then
      let m := qmod input0 360
      if m = 0 then .error "float division by zero"
      else .ok (input0 / m)
    else .ok input0
  match adj with
  | .error e => .error e
  | .ok input =>
    let closest := (rotationKeys.drop 1).foldl
      (fun best k => if |k - input| < |best - input| then k else best) 0
    .ok ((rotationMap.lookup closest).getD 0)

/-- `revolve_left_and_right(angle)`. -/
def revolve_left_and_right (angle : ℚ) : Except String (ℚ × Int) :=
  match findClosestOutput |angle| with
  | .error e => .error e
  | .ok times => .ok (times, if angle < 0 then -10000 else 10000)

/-! ## Executor tables -/

/-- `PREREQUISITE_STATE`. -/
def PREREQUISITE_STATE (code : Int) : Option String :=
  if code = 0x21010502 then some DogState.LYING
  else if code = 0x2101050B then some DogState.LYING
  else if code = 0x21010205 then some DogState.LYING
  else if code = 0x21010507 then some DogState.STANDING
  else if code = 0x21010204 then some DogState.STANDING
  else if code = 0x2101030C then some DogState.STANDING
  else if code = 0x2101020D then some DogState.STANDING
  else none

/-- `ACTION_EXECUTION_STATE`. -/
def ACTION_EXECUTION_STATE (code : Int) : Option (List Int) :=
  if code = 0x21010204 then some [6, 0, 2]
  else if code = 0x2101020D then some [6, 0, 4]
  else if code = 0x2101030C then some [6, 12, 1]
  else if code = 0x21010507 then some [20, 0, 0]
  else if code = 0x21010502 then some [1, 0, 0]
  else if code = 0x2101050B then some [1, 0, 0]
  else if code = 0x21010205 then some [1, 0, 0]
  else none

/-- `ACTION_SPECIAL_HANDLING`: `(wait_after_state, post_action)`. -/
def ACTION_SPECIAL_HANDLING (code : Int) : Option (ℚ × Int) :=
  if code = 0x2101030C then some (4, 0x21010202) else none

/-- `POSTURE_CODE`. -/
def POSTURE_CODE (sem : String) : Option Int :=
  if sem = "posture_pitch" then some 0x21010130
  else if sem = "posture_roll" then some 0x21010131
  else if sem = "posture_yaw" then some 0x21010135
  else none

/-- `MOVE_CODE`. -/
def MOVE_CODE (sem : String) : Option Int :=
  if sem = "move_x" then some 0x21010130
  else if sem = "move_y" then some 0x21010131
  else if sem = "move_yaw" then some 0x21010135
  else none

/-- Python `int()` on a float: truncation toward zero. -/
def pyTrunc (q : ℚ) : Int := if 0 ≤ q then q.floor else q.ceil

/-- A hexadecimal digit's value. -/
def hexDigitVal (c : Char) : Option Nat :=
  if '0' ≤ c ∧ c ≤ '9' then some (c.toNat - '0'.toNat)
  else if 'a' ≤ c ∧ c ≤ 'f' then some (c.toNat - 'a'.toNat + 10)
  else if 'A' ≤ c ∧ c ≤ 'F' then some (c.toNat - 'A'.toNat + 10)
  else none

def hexDigitsVal (cs : List Char) : Option Nat :=
  match cs with
  | [] => none
  | _ => cs.foldl (fun acc c =>
      match acc, hexDigitVal c with
      | some a, some d => some (a * 16 + d)
      | _, _ => none) (some 0)

/-- Python `int(text, 16)`: strip whitespace, optional sign, optional
`0x`/`0X` prefix, then hexadecimal digits; anything else raises
`ValueError` (`none`).  Underscore digit separators are not modelled. -/
def pyIntHex (text : String) : Option Int :=
  let cs := pyStrip text.toList
  let signed : Bool × List Char :=
    match cs with
    | '+' :: t => (false, t)
    | '-' :: t => (true, t)
    | _ => (false, cs)
  let cs2 :=
    match signed.2 with
    | '0' :: x :: t => if x = 'x' ∨ x = 'X' then t else signed.2
    | _ => signed.2
  match hexDigitsVal cs2 with
  | some n => some (if signed.1 then -(n : Int) else (n : Int))
  | none => none

/-! ## `exec_actions` -/

/-- One `ActionRequest` as `exec_actions` consumes it: `act.get("code")` (a
hex string, or absent — `str(None)` is `"None"`), `act.get("param", 0)` and
`act.get("semantic")`. -/
structure Action where
  code : Option String
  param : ℚ
  semantic : Option String
  deriving DecidableEq

/-- The submitted payload; `payload.get("actions", [])`. -/
structure Payload where
  actions : Option (List Action)
  deriving DecidableEq

/-- `ExecResult` (the `ActionOutcome`); the wall-clock timestamps are not
modelled. -/
structure ExecResult where
  ok : Bool
  action_index : Nat
  code : Int
  param : ℚ
  message : String
  deriving DecidableEq

/-- `_exec_motion`: execute one action; `some e` is an exception with
message `e` propagating to the per-action handler in `exec_actions`. -/
def execMotion (env : Env) (code : Int) (param : ℚ) (semantic : Option String)
    (s : ExSt) : ExSt × Option String :=
  if code = 0x2101030C then (execMoonwalk env s, none)
  else
    let s := match PREREQUISITE_STATE code with
      | some target => ensureState env target 8 s
      | none => s
    if semantic.bind MOVE_CODE = some code then
      match performAction env 0x21010D06 0 s with
      | (s, some e) => (s, some e)
      | (s, none) =>
        let s := pushEv s (.sleepFor (2/10))
        match (match semantic with
          | some sem =>
            if sem = "move_x" then go_straight param 3
            else if sem = "move_y" then translate_left_and_right param 3
            else if sem = "move_yaw" then revolve_left_and_right param
            else .error "未知移动语义"
          | none => .error "未知移动语义") with
        | .error e => (s, some e)
        | .ok (times, val) =>
          let s := runRepeatAction code times val s
          sendStopMotion env (3/2) s
    else if semantic.bind POSTURE_CODE = some code then
      let s :=
        if semantic = some "posture_pitch" ∧ s.curState ≠ DogState.STANDING then
          ensureState env DogState.STANDING 8 s
        else s
      match performAction env 0x21010D05 0 s with
      | (s, some e) => (s, some e)
      | (s, none) =>
        let s := pushEv s (.sleepFor (3/10))
        match performAction env code (pyTrunc param) s with
        | (s, some e) => (s, some e)
        | (s, none) => (pushEv s (.sleepFor (8/10)), none)
    else
      match ACTION_EXECUTION_STATE code with
      | some execState =>
        match performAction env code 0 s with
        | (s, some e) => (s, some e)
        | (s, none) =>
          let (_, s) := waitForExecutionState env execState 8 s
          match ACTION_SPECIAL_HANDLING code with
          | some (waitAfter, postAction) =>
            let s := if 0 < waitAfter then pushEv s (.sleepFor waitAfter) else s
            match performAction env postAction 0 s with
            | (s, some e) => (s, some e)
            | (s, none) =>
              let s := pushEv s (.sleepFor (8/10))
              let s := refreshState env 2 s
              let (_, s) := waitMotionStable env 3 s
              (s, none)
          | none =>
            if PREREQUISITE_STATE code = some DogState.STANDING then
              let (_, s) := waitForActionCompletion env execState 15 s
              let s := refreshState env 1 s
              let (_, s) := waitMotionStable env 3 s
              (s, none)
            else if PREREQUISITE_STATE code = some DogState.LYING then
              let (_, s) := waitMotionStable env 6 s
              (refreshState env 1 s, none)
            else (s, none)
      | none =>
        match performAction env code (pyTrunc param) s with
        | (s, some e) => (s, some e)
        | (s, none) => (pushEv s (.sleepFor (1/2)), none)

/-- `_has_move`: whether any action carries a locomotion semantic. -/
def hasMove (actions : List Action) : Bool :=
  actions.any (fun a => (a.semantic.bind MOVE_CODE).isSome)

/-- `_prepare_for_first_move`: manual mode, ensure standing, movement mode,
settle.  Its send faults propagate out of `exec_actions`. -/
def prepareForFirstMove (env : Env) (s : ExSt) : ExSt × Option String :=
  match performAction env 0x21010C02 0 s with
  | (s, some e) => (s, some e)
  | (s, none) =>
    let s := pushEv s (.sleepFor (3/10))
    let s := ensureState env DogState.STANDING 10 s
    match performAction env 0x21010D06 0 s with
    | (s, some e) => (s, some e)
    | (s, none) =>
      let s := pushEv s (.sleepFor (1/2))
      let (_, s) := waitMotionStable env 3 s
      (s, none)

/-- The inter-action preparation in `exec_actions`; every exception inside
it is caught and answered with a 0.5 s sleep. -/
def interPrep (env : Env) (next : Action) (s : ExSt) : ExSt :=
  match pyIntHex (next.code.getD "None") with
  | none => pushEv s (.sleepFor (1/2))
  | some nextCode =>
    if (next.semantic.bind MOVE_CODE).isSome then
      match performAction env 0x21010D06 0 s with
      | (s, some _) => pushEv s (.sleepFor (1/2))
      | (s, none) => pushEv s (.sleepFor (3/10))
    else
      match PREREQUISITE_STATE nextCode with
      | some targetState =>
        let s := refreshState env 1 s
        let (_, s) := waitMotionStable env 3 s
        ensureState env targetState 10 s
      | none =>
        let (_, s) := waitMotionStable env 2 s
        pushEv s (.sleepFor (1/2))

/-- The per-action loop of `exec_actions`.  The returned flag is `true` when
the loop ended normally or via `break` (the sequence epilogue still runs)
and `false` on the in-action exception path (`return results`). -/
def execLoop (env : Env) (actions : List Action) (idx : Nat) (s : ExSt)
    (acc : List ExecResult) : List ExecResult × ExSt × Bool :=
  match actions with
  | [] => (acc, s, true)
  | act :: rest =>
    match pyIntHex (act.code.getD "None") with
    | none => (acc ++ [⟨false, idx, 0, act.param, "code解析失败"⟩], s, true)
    | some code =>
      if code = 0x21020C0E then
        match performAction env 0x21020C0E 0 s with
        | (s, none) => (acc ++ [⟨true, idx, code, act.param, "已急停"⟩], s, true)
        | (s, some e) =>
          (acc ++ [⟨false, idx, code, act.param, "急停失败: " ++ e⟩], s, true)
      else
        match execMotion env code act.param act.semantic s with
        | (s, some e) =>
          let s := (performAction env 0x21020C0E 0 s).1
          (acc ++ [⟨false, idx, code, act.param, "执行异常: " ++ e⟩], s, false)
        | (s, none) =>
          let acc := acc ++ [⟨true, idx, code, act.param, "执行成功"⟩]
          match rest with
          | [] => (acc, s, true)
          | nextAct :: _ => execLoop env rest (idx + 1) (interPrep env nextAct s) acc

/-- `exec_actions`: reject an absent/empty `actions` array, prepare for
locomotion if any is present, run the action loop, then the sequence
epilogue — final lie-down when no locomotion was requested, else a stop
burst.  An uncaught exception is an `.error` result. -/
def exec_actions (env : Env) (p : Payload) (s : ExSt) :
    Except String (List ExecResult) × ExSt :=
  let actions := p.actions.getD []
  if actions.isEmpty then (.error "JSON中必须包含非空 actions 数组", s)
  else
    let hm := hasMove actions
    match (if hm then prepareForFirstMove env s else (s, none)) with
    | (s, some e) => (.error e, s)
    | (s, none) =>
      match execLoop env actions 0 s [] with
      | (results, s, runEpilogue) =>
        if runEpilogue then
          if hm then
            match sendStopMotion env (12/10) s with
            | (s, none) => (.ok results, s)
            | (s, some e) => (.error e, s)
          else
            let (_, s) := waitMotionStable env 6 s
            let s := ensureState env DogState.LYING 12 s
            (.ok results, s)
        else (.ok results, s)

/-- `_worker_run`'s outcome: `("done", no error, results)` when
`exec_actions` returns, `("failed", the exception text, [])` when it
raises. -/
def workerRun (env : Env) (p : Payload) : String × Option String × List ExecResult :=
  match exec_actions env p initExSt with
  | (.ok res, _) => ("done", none, res)
  | (.error e, _) => ("failed", some e, [])

/-- An environment whose telemetry constantly reports the standing rest
vector `[6,0,0]` and whose transport never faults. -/
def envStanding : Env := ⟨fun _ => some [6, 0, 0], fun _ => none⟩

def estopPayload : Payload := ⟨some [⟨some "0x21020C0E", 0, none⟩]⟩

def backflipPayload : Payload := ⟨some [⟨some "0x21010502", 0, none⟩]⟩

/-! ## Theorems -/


/-! ## Theorems: codec -/

theorem bytesOfU32_reconstruct (u : Nat) (h : u < 4294967296) :
    u % 256 + 256 * (u / 256 % 256) + 65536 * (u / 65536 % 256)
      + 16777216 * (u / 16777216 % 256) = u := by
  omega

theorem toSigned32_toUnsigned32 (n : Int) (h1 : -2147483648 ≤ n) (h2 : n < 2147483648) :
    toSigned32 (toUnsigned32 n) = n := by
  unfold toSigned32 toUnsigned32
  split <;> omega

theorem toUnsigned32_lt (n : Int) : toUnsigned32 n < 4294967296 := by
  unfold toUnsigned32
  omega

theorem u32at_send_command_0 (c p k : Int) :
    u32at (send_command c p k) 0
      = toUnsigned32 c % 256 + 256 * (toUnsigned32 c / 256 % 256)
        + 65536 * (toUnsigned32 c / 65536 % 256)
        + 16777216 * (toUnsigned32 c / 16777216 % 256) := rfl

theorem u32at_send_command_4 (c p k : Int) :
    u32at (send_command c p k) 4
      = toUnsigned32 p % 256 + 256 * (toUnsigned32 p / 256 % 256)
        + 65536 * (toUnsigned32 p / 65536 % 256)
        + 16777216 * (toUnsigned32 p / 16777216 % 256) := rfl

theorem u32at_send_command_8 (c p k : Int) :
    u32at (send_command c p k) 8
      = toUnsigned32 k % 256 + 256 * (toUnsigned32 k / 256 % 256)
        + 65536 * (toUnsigned32 k / 65536 % 256)
        + 16777216 * (toUnsigned32 k / 16777216 % 256) := rfl

/-- C4: for every in-range command triple, encoding yields exactly 12 bytes in
little-endian order with field order (code, param, kind), and decoding those
12 bytes as three little-endian signed 32-bit integers returns the triple. -/
theorem send_command_length_and_roundtrip (code param kind : Int)
    (hc : -2147483648 ≤ code ∧ code < 2147483648)
    (hp : -2147483648 ≤ param ∧ param < 2147483648)
    (hk : -2147483648 ≤ kind ∧ kind < 2147483648) :
    (send_command code param kind).length = 12
      ∧ send_command code param kind
          = packInt32LE code ++ packInt32LE param ++ packInt32LE kind
      ∧ decode_command (send_command code param kind) = (code, param, kind) := by
  refine ⟨rfl, rfl, ?_⟩
  unfold decode_command
  rw [u32at_send_command_0, u32at_send_command_4, u32at_send_command_8,
    bytesOfU32_reconstruct _ (toUnsigned32_lt code),
    bytesOfU32_reconstruct _ (toUnsigned32_lt param),
    bytesOfU32_reconstruct _ (toUnsigned32_lt kind),
    toSigned32_toUnsigned32 code hc.1 hc.2,
    toSigned32_toUnsigned32 param hp.1 hp.2,
    toSigned32_toUnsigned32 kind hk.1 hk.2]

/-- Witness for C4: the round-trip at the concrete frame
`{code: 0x21010202, param: 0, kind: 0}`. -/
theorem send_command_roundtrip_witness :
    (send_command 0x21010202 0 0).length = 12
      ∧ decode_command (send_command 0x21010202 0 0) = (0x21010202, 0, 0) := by
  have h := send_command_length_and_roundtrip 0x21010202 0 0
    (by decide) (by decide) (by decide)
  exact ⟨h.1, h.2.2⟩

/-! ## Theorems: classification -/

/-- C3: `_classify_state` is total (every vector maps to one of the three
classes), depends only on the `basic_state` head field, and maps
6/20/25/5 to STANDING, 1 to LYING and every other integer to UNKNOWN. -/
theorem classify_state_total_pure :
    (∀ st : List Int, classify_state st = DogState.STANDING
        ∨ classify_state st = DogState.LYING
        ∨ classify_state st = DogState.UNKNOWN)
      ∧ (∀ (b : Int) (rest rest' : List Int),
          classify_state (b :: rest) = classify_state (b :: rest'))
      ∧ (∀ (b : Int) (rest : List Int),
          classify_state (b :: rest)
            = if b = 6 ∨ b = 20 ∨ b = 25 ∨ b = 5 then DogState.STANDING
              else if b = 1 then DogState.LYING
              else DogState.UNKNOWN) := by
  refine ⟨?_, ?_, ?_⟩
  · intro st
    cases st with
    | nil => simp [classify_state, DogState.UNKNOWN]
    | cons b rest =>
      simp only [classify_state, List.length_cons, List.headD_cons]
      split_ifs <;> simp
  · intro b rest rest'
    simp [classify_state]
  · intro b rest
    simp only [classify_state, List.length_cons, List.headD_cons]
    split_ifs <;> simp_all

/-! ## Theorems: telemetry listener -/

/-- C5: a received datagram publishes a new state vector exactly when it is
212 bytes long with opcode 2305 and non-zero `basic_state`; the published
vector is `[basic_state, gait_state, motion_state]` with `motion_state`
read signed at byte 176; all other lengths (108 included) publish nothing. -/
theorem status_listener_frame_spec (bs : List Nat) :
    status_listener_frame bs
      = if bs.length = 212 ∧ u32at bs 0 = 2305 ∧ u32at bs 12 ≠ 0
        then some [(u32at bs 12 : Int), (u32at bs 16 : Int), toSigned32 (u32at bs 176)]
        else none := by
  unfold status_listener_frame robotStateVector
  split_ifs <;> simp_all

/-! ## Theorems: log buffer -/

theorem log_append_length_le (logs : List String) (e : String)
    (h : logs.length ≤ 1000) : (log_append logs e).length ≤ 1000 := by
  have hl : (logs ++ [e]).length = logs.length + 1 := by simp
  unfold log_append
  dsimp only
  split <;> (try simp only [List.length_drop]) <;> omega

theorem foldl_log_append_length_le (entries : List String) :
    ∀ logs : List String, logs.length ≤ 1000 →
      (entries.foldl log_append logs).length ≤ 1000 := by
  induction entries with
  | nil => intro logs h; simpa using h
  | cons e rest ih =>
    intro logs h
    simpa using ih (log_append logs e) (log_append_length_le logs e h)

/-- C9: for every history of appended lines and every `N`, the buffer built
by `LogCollector.append` holds at most 1000 lines, and `GET /logs?since=N`
returns exactly the buffer elements at indices `≥ N` (element `j` of the
response is buffer element `N + j`), with `count` the number of returned
lines and the echoed `since`. -/
theorem logs_since_spec (entries : List String) (N : Nat) :
    ((entries.foldl log_append []).length ≤ 1000)
      ∧ logs_response (entries.foldl log_append []) N
          = ((entries.foldl log_append []).drop N,
             (entries.foldl log_append []).length - N, N)
      ∧ (∀ j : Nat, j < (get_logs (entries.foldl log_append []) N).length →
          (get_logs (entries.foldl log_append []) N).getD j ""
            = (entries.foldl log_append []).getD (N + j) "") := by
  refine ⟨foldl_log_append_length_le entries [] (by simp), ?_, ?_⟩
  · simp [logs_response, get_logs]
  · intro j hj
    simp [get_logs, List.getD, List.getElem?_drop]

/-- Witness for C9 at a concrete three-line history with `since = 1`. -/
theorem logs_since_witness :
    (get_logs (["a", "b", "c"].foldl log_append []) 1).getD 0 ""
      = (["a", "b", "c"].foldl log_append []).getD 1 "" :=
  (logs_since_spec ["a", "b", "c"] 1).2.2 0 (by decide)

theorem markDead_map_fst (l : List (Nat × Bool)) (t : Nat) :
    (markDead l t).map Prod.fst = l.map Prod.fst := by
  unfold markDead
  rw [List.map_map]
  apply List.map_congr_left
  intro p _
  by_cases h : p.1 = t <;> simp [h]

theorem mem_markDead {l : List (Nat × Bool)} {t u : Nat} {b : Bool}
    (h : (u, b) ∈ markDead l t) : ∃ b0, (u, b0) ∈ l ∧ (b = true → b0 = true) := by
  unfold markDead at h
  rw [List.mem_map] at h
  obtain ⟨p, hp, heq⟩ := h
  by_cases hpt : p.1 = t
  · rw [if_pos hpt] at heq
    injection heq with hu hb
    subst hu
    refine ⟨p.2, hp, ?_⟩
    intro hbt
    rw [← hb] at hbt
    cases hbt
  · rw [if_neg hpt] at heq
    exact ⟨b, heq ▸ hp, fun h => h⟩

theorem svcInv_init : SvcInv initSvc := by
  refine ⟨?_, ?_, ?_, ?_, ?_⟩ <;> simp [initSvc]

theorem svcInv_step {s : Svc} {l : SvcLabel} {s' : Svc}
    (hInv : SvcInv s) (hs : SvcStep s l s') : SvcInv s' := by
  obtain ⟨h1, h2, h3, h4, h5⟩ := hInv
  cases hs with
  | submit t ht =>
    refine ⟨?_, h2, h3, ?_, h5⟩
    · intro u hu
      by_cases hx : u = t
      · subst hx; simp at hu
      · simp only [hx, if_false] at hu
        exact h1 u hu
    · intro u b hm
      have hne : u ≠ t := by
        intro he
        exact absurd ht (by rw [← he]; exact (h4 u b hm).1)
      simpa [hne] using h4 u b hm
  | post t st hc hst =>
    refine ⟨h1, h2, h3, h4, ?_⟩
    intro u st' hm
    simp only [List.mem_append, List.mem_singleton] at hm
    rcases hm with hm | hm
    · exact h5 u st' hm
    · cases hm; exact hst
  | die t ht =>
    refine ⟨h1, ?_, ?_, ?_, h5⟩
    · intro u b hm hb
      obtain ⟨b0, hb0, himp⟩ := mem_markDead hm
      exact h2 u b0 hb0 (himp hb)
    · simpa [markDead_map_fst] using h3
    · intro u b hm
      obtain ⟨b0, hb0, _⟩ := mem_markDead hm
      exact h4 u b0 hb0
  | drain t st rest hq =>
    have hst : st = .done ∨ st = .failed := h5 t st (by rw [hq]; simp)
    refine ⟨?_, h2, h3, ?_, ?_⟩
    · intro u hu
      by_cases hx : u = t
      · subst hx
        simp only [updStatus, if_pos rfl] at hu
        rcases hst with h | h <;> subst h <;>
          rcases hval : (s.status u).isSome with _ | _ <;> simp [hval] at hu
      · simp only [updStatus, hx, if_false] at hu
        exact h1 u hu
    · intro u b hm
      by_cases hx : u = t
      · subst hx
        have hpre := h4 u b hm
        have hsome : (s.status u).isSome := by
          cases hv : s.status u
          · exact absurd hv hpre.1
          · simp
        simp only [updStatus, if_pos rfl, hsome, if_true]
        rcases hst with h | h <;> subst h <;> simp
      · simpa [updStatus, hx] using h4 u b hm
    · intro u st' hm
      exact h5 u st' (by rw [hq]; exact List.mem_cons_of_mem _ hm)
  | reclaim t hc hd =>
    refine ⟨?_, ?_, h3, ?_, h5⟩
    · intro u hu
      exfalso
      by_cases hrun : s.status t = some .running
      · simp only [if_pos hrun] at hu
        by_cases hx : u = t
        · subst hx
          simp [updStatus, hrun] at hu
        · simp only [updStatus, hx, if_false] at hu
          have := h1 u hu
          rw [hc] at this
          injection this with h
          exact hx h.symm
      · simp only [if_neg hrun] at hu
        have := h1 u hu
        rw [hc] at this
        injection this with h
        subst h
        exact hrun hu
    · intro u b hm hb
      exfalso
      have := h2 u b hm hb
      rw [hc] at this
      injection this with h
      subst h
      exact hd (hb ▸ hm)
    · intro u b hm
      have hpre := h4 u b hm
      by_cases hrun : s.status t = some .running
      · simp only [if_pos hrun]
        by_cases hx : u = t
        · subst hx
          simp [updStatus, hrun]
        · simpa [updStatus, hx] using hpre
      · simpa [if_neg hrun] using hpre
  | popStart t rest hcur hq hst =>
    have htnotin : t ∉ s.procs.map Prod.fst := by
      intro hmem
      rw [List.mem_map] at hmem
      obtain ⟨p, hp, hfst⟩ := hmem
      exact (h4 p.1 p.2 (by simpa using hp)).2 (hfst ▸ hst)
    refine ⟨?_, ?_, ?_, ?_, h5⟩
    · intro u hu
      by_cases hx : u = t
      · subst hx; rfl
      · simp only [updStatus, hx, if_false] at hu
        have := h1 u hu
        rw [hcur] at this
        exact absurd this (by simp)
    · intro u b hm hb
      simp only [List.mem_append, List.mem_singleton] at hm
      rcases hm with hm | hm
      · have := h2 u b hm hb
        rw [hcur] at this
        exact absurd this (by simp)
      · cases hm; rfl
    · simp only [List.map_append, List.map_cons, List.map_nil]
      rw [List.nodup_append]
      exact ⟨h3, List.nodup_singleton t, by simpa [List.disjoint_right] using htnotin⟩
    · intro u b hm
      simp only [List.mem_append, List.mem_singleton] at hm
      rcases hm with hm | hm
      · have hpre := h4 u b hm
        have hne : u ≠ t := by
          intro he
          exact htnotin (he ▸ List.mem_map_of_mem Prod.fst hm)
        simpa [updStatus, hne] using hpre
      · cases hm
        simp [updStatus, hst]
  | popSkip t rest hcur hq hst =>
    exact ⟨h1, h2, h3, h4, h5⟩
  | estopCancel =>
    refine ⟨?_, h2, h3, ?_, h5⟩
    · intro u hu
      simp only [cancelQueued] at hu
      by_cases hqd : s.status u = some .queued
      · simp [hqd] at hu
      · simp only [hqd, if_false] at hu
        exact h1 u hu
    · intro u b hm
      have hpre := h4 u b hm
      simp only [cancelQueued]
      by_cases hqd : s.status u = some .queued
      · exact absurd hqd hpre.2
      · simpa [hqd] using hpre

theorem svcInv_reachable {s : Svc} (h : SvcReachable s) : SvcInv s := by
  induction h with
  | init => exact svcInv_init
  | step _ hs ih => exact svcInv_step ih hs

theorem filter_alive_len_le_one (l : List (Nat × Bool)) (t0 : Nat)
    (h2 : ∀ t b, (t, b) ∈ l → b = true → t = t0)
    (h3 : (l.map Prod.fst).Nodup) :
    (l.filter (fun p => p.2)).length ≤ 1 := by
  induction l with
  | nil => simp
  | cons a l ih =>
    simp only [List.map_cons, List.nodup_cons] at h3
    by_cases ha : a.2 = true
    · have hfst : a.1 = t0 := h2 a.1 a.2 (by simp) ha
      have hnil : l.filter (fun p => p.2) = [] := by
        rw [List.filter_eq_nil_iff]
        intro p hp hptrue
        have hp0 : p.1 = t0 := h2 p.1 p.2 (by simp [hp]) (by simpa using hptrue)
        exact h3.1 (hfst ▸ hp0 ▸ List.mem_map_of_mem Prod.fst hp)
      simp [List.filter_cons, ha, hnil]
    · have ha' : a.2 = false := by revert ha; cases a.2 <;> simp
      simp only [List.filter_cons, ha', Bool.false_eq_true, if_false]
      exact ih (fun t b hm hb => h2 t b (List.mem_cons_of_mem _ hm) hb) h3.2

/-- C2: in every reachable service state, at most one task is `running`,
at most one worker process is alive, and the dispatch loop pops the next
queued id only in states where every spawned worker process is dead. -/
theorem service_single_flight (s : Svc) (h : SvcReachable s) :
    (∀ t1 t2, s.status t1 = some .running → s.status t2 = some .running → t1 = t2)
      ∧ (s.procs.filter (fun p => p.2)).length ≤ 1
      ∧ (∀ (l : SvcLabel) (s' : Svc), SvcStep s l s' →
          (l = .popStart ∨ l = .popSkip) → ∀ p ∈ s.procs, p.2 = false) := by
  obtain ⟨h1, h2, h3, h4, h5⟩ := svcInv_reachable h
  have hnocur : s.current = none → ∀ p ∈ s.procs, p.2 = false := by
    intro hc p hp
    by_cases hpb : p.2 = true
    · have := h2 p.1 p.2 (by simpa using hp) hpb
      rw [hc] at this
      exact absurd this (by simp)
    · simpa using hpb
  refine ⟨?_, ?_, ?_⟩
  · intro t1 t2 hr1 hr2
    have e1 := h1 t1 hr1
    have e2 := h1 t2 hr2
    rw [e1] at e2
    exact Option.some.inj e2
  · cases hcur : s.current with
    | none =>
      have : s.procs.filter (fun p => p.2) = [] := by
        rw [List.filter_eq_nil_iff]
        intro p hp hb
        have := hnocur hcur p hp
        simp_all
      simp [this]
    | some t0 =>
      refine filter_alive_len_le_one s.procs t0 ?_ h3
      intro t b hm hb
      have := h2 t b hm hb
      rw [hcur] at this
      injection this with this
      exact this.symm
  · intro l s' hstep hl p hp
    cases hstep with
    | popStart t rest hcur hq hst => exact hnocur hcur p hp
    | popSkip t rest hcur hq hst => exact hnocur hcur p hp
    | submit t ht => rcases hl with hl | hl <;> exact absurd hl (by decide)
    | post t st hc hst => rcases hl with hl | hl <;> exact absurd hl (by decide)
    | die t ht => rcases hl with hl | hl <;> exact absurd hl (by decide)
    | drain t st rest hq => rcases hl with hl | hl <;> exact absurd hl (by decide)
    | reclaim t hc hd => rcases hl with hl | hl <;> exact absurd hl (by decide)
    | estopCancel => rcases hl with hl | hl <;> exact absurd hl (by decide)

/-- Witness for C2 at the initial service state. -/
theorem service_single_flight_witness :
    (initSvc.procs.filter (fun p => p.2)).length ≤ 1 :=
  (service_single_flight initSvc SvcReachable.init).2.1

/-! ## Theorems: command executor -/

/-- C1 (amended): when the next action's code parses to the emergency-stop
opcode 0x21020C0E and the transport does not fault, the executor issues the
stop frame immediately (the only event this step adds to the trace),
records the outcome for that index as `ok = true` with the stop message,
and the action loop ends with no outcomes for any later action; the
state-correction and settle waits of the sequence epilogue still run after
the loop. -/
theorem emergency_stop_short_circuit (env : Env) (a : Action) (rest : List Action)
    (k : Nat) (s : ExSt) (acc : List ExecResult)
    (hcode : pyIntHex (a.code.getD "None") = some 0x21020C0E)
    (hnf : env.sendFault s.sends = none) :
    execLoop env (a :: rest) k s acc
      = (acc ++ [⟨true, k, 0x21020C0E, a.param, "已急停"⟩],
         { s with sends := s.sends + 1, trace := s.trace ++ [.send 0x21020C0E 0] },
         true) := by
  simp only [execLoop]
  rw [hcode]
  simp [performAction, hnf, pushEv]

/-- Witness for the amended C1 at a concrete emergency-stop action. -/
theorem emergency_stop_short_circuit_witness :
    execLoop ⟨fun _ => none, fun _ => none⟩ [⟨some "0x21020C0E", 0, none⟩] 0 initExSt []
      = ([⟨true, 0, 0x21020C0E, 0, "已急停"⟩],
         { initExSt with sends := 1, trace := [.send 0x21020C0E 0] }, true) := by
  rw [emergency_stop_short_circuit ⟨fun _ => none, fun _ => none⟩
    ⟨some "0x21020C0E", 0, none⟩ [] 0 initExSt [] rfl rfl]
  rfl

/-- Counterexample to C1 as stated: for the one-action sequence
`[0x21020C0E]` under standing telemetry, the stop is issued first and the
outcome list ends there, but the executor then still performs settle waits
(`_wait_motion_stable`) and the stand/lie state-correction toggle
0x21010202 in the sequence epilogue (`exec_actions` breaks out of the loop
instead of returning, so the final lie-down still runs). -/
theorem emergency_stop_epilogue_still_runs :
    (exec_actions envStanding estopPayload initExSt).1
        = .ok [⟨true, 0, 0x21020C0E, 0, "已急停"⟩]
      ∧ (exec_actions envStanding estopPayload initExSt).2.trace.getD 0 (.sleepFor 0)
          = Ev.send 0x21020C0E 0
      ∧ Ev.waitMotion 6 ∈ (exec_actions envStanding estopPayload initExSt).2.trace
      ∧ Ev.send 0x21010202 0 ∈ (exec_actions envStanding estopPayload initExSt).2.trace := by
  exact ⟨rfl, rfl, by decide, by decide⟩

/-- C6: an exception raised while executing one action is caught, recorded
as a failed `ActionOutcome` for that action, followed by an emergency-stop
send, and the loop returns immediately: the result list ends at the failing
action and no epilogue flag is set. -/
theorem action_exception_aborts (env : Env) (a : Action) (rest : List Action)
    (k : Nat) (s : ExSt) (acc : List ExecResult) (code : Int) (e : String)
    (hcode : pyIntHex (a.code.getD "None") = some code)
    (hne : code ≠ 0x21020C0E)
    (hraise : (execMotion env code a.param a.semantic s).2 = some e) :
    execLoop env (a :: rest) k s acc
      = (acc ++ [⟨false, k, code, a.param, "执行异常: " ++ e⟩],
         (performAction env 0x21020C0E 0
           (execMotion env code a.param a.semantic s).1).1, false)
      ∧ (env.sendFault (execMotion env code a.param a.semantic s).1.sends = none →
          (performAction env 0x21020C0E 0
            (execMotion env code a.param a.semantic s).1).1.trace
            = (execMotion env code a.param a.semantic s).1.trace
              ++ [.send 0x21020C0E 0]) := by
  rcases hex : execMotion env code a.param a.semantic s with ⟨s2, r⟩
  rw [hex] at hraise
  have hr : r = some e := hraise
  subst hr
  constructor
  · simp only [execLoop]
    rw [hcode]
    simp [hne, hex]
  · intro h
    simp only at h
    simp [performAction, h, pushEv]

/-- Witness for C6: the single action `move_yaw` by 720° raises a
`ZeroDivisionError` inside `revolve_left_and_right` (720 is a multiple of
360), which aborts the sequence with a failed outcome. -/
theorem action_exception_aborts_witness :
    (execLoop envStanding [⟨some "0x21010135", 720, some "move_yaw"⟩] 0 initExSt []).1
        = [⟨false, 0, 0x21010135, 720, "执行异常: float division by zero"⟩]
      ∧ (execLoop envStanding [⟨some "0x21010135", 720, some "move_yaw"⟩]
          0 initExSt []).2.2 = false := by
  have h1 : ((720 : ℚ) / 360) = 2 := by norm_num
  have hfloor : Rat.floor (2 : ℚ) = 2 := by
    rw [Rat.floor_def']
    simp
  have hrev : revolve_left_and_right (720 : ℚ) = .error "float division by zero" := by
    norm_num [revolve_left_and_right, findClosestOutput, qmod, h1, hfloor, abs_of_nonneg]
  have hmot : (execMotion envStanding 0x21010135 720
      (some "move_yaw") initExSt).2 = some "float division by zero" := by
    simp [execMotion, PREREQUISITE_STATE, MOVE_CODE, POSTURE_CODE, Option.bind,
      performAction, envStanding, pushEv, hrev]
  rw [(action_exception_aborts envStanding ⟨some "0x21010135", 720, some "move_yaw"⟩
    [] 0 initExSt [] 0x21010135 "float division by zero" rfl (by decide) hmot).1]
  exact ⟨by simp, rfl⟩

/-- C7: for the single-action sequence `[{code: "0x21010502"}]` (a
LYING-prerequisite trick) under telemetry constantly reporting the standing
vector `[6,0,0]`, the executor sends the stand/lie posture-correction
toggle 0x21010202 on the wire strictly before the trick opcode
0x21010502. -/
theorem posture_correction_before_trick :
    Ev.send 0x21010202 0 ∈ (exec_actions envStanding backflipPayload initExSt).2.trace
      ∧ Ev.send 0x21010502 0 ∈ (exec_actions envStanding backflipPayload initExSt).2.trace
      ∧ List.indexOf (Ev.send 0x21010202 0)
            ((exec_actions envStanding backflipPayload initExSt).2.trace)
          < List.indexOf (Ev.send 0x21010502 0)
            ((exec_actions envStanding backflipPayload initExSt).2.trace) := by
  refine ⟨by decide, by decide, by decide⟩

/-- C10: a payload whose `actions` key is absent or maps to an empty list
makes `exec_actions` raise (`ValueError`) instead of returning an empty
result list, so the worker posts status `failed` with a non-empty error and
never `done`. -/
theorem empty_actions_fails (env : Env) (p : Payload)
    (h : p.actions = none ∨ p.actions = some []) :
    (exec_actions env p initExSt).1 = .error "JSON中必须包含非空 actions 数组"
      ∧ workerRun env p = ("failed", some "JSON中必须包含非空 actions 数组", [])
      ∧ "JSON中必须包含非空 actions 数组" ≠ "" := by
  have ha : (p.actions.getD []).isEmpty = true := by
    rcases h with h | h <;> simp [h]
  refine ⟨?_, ?_, by decide⟩
  · simp [exec_actions, ha]
  · simp [workerRun, exec_actions, ha]

/-- Witness for C10: the payload with no `actions` key. -/
theorem empty_actions_fails_witness :
    workerRun ⟨fun _ => none, fun _ => none⟩ ⟨none⟩
      = ("failed", some "JSON中必须包含非空 actions 数组", []) :=
  (empty_actions_fails ⟨fun _ => none, fun _ => none⟩ ⟨none⟩ (Or.inl rfl)).2.1

/-! ## Theorems: HTTP `/execute` -/

/-- Counterexample to C8 as stated: the body `notjson` is non-empty and not
parseable as JSON, yet the service answers 500, not 400 — `json.loads`'s
exception propagates to `do_POST`'s blanket `except`, which maps every
escaping exception to 500. -/
theorem execute_unparsable_body_is_500 :
    jsonLoadsModel (stripOuterQuotes (pyStrip "notjson".toList)) = none
      ∧ (do_POST_execute jsonLoadsModel "notjson".toList).status = 500
      ∧ (500 : Nat) ≠ 400 := by
  refine ⟨rfl, rfl, by decide⟩

/-- C8 amended: an empty body answers 400; a non-empty body on which
`json.loads` fails answers 500; a body parsing to a truthy value (in
particular a non-empty JSON object) answers 200 with `ok` and a `task_id`;
a body parsing to a falsy value answers 400. -/
theorem execute_status_spec (parse : List Char → Option PyJson) (raw : List Char) :
    (raw = [] → do_POST_execute parse raw = ⟨400, false, false⟩)
      ∧ (raw ≠ [] → parse (stripOuterQuotes (pyStrip raw)) = none →
          do_POST_execute parse raw = ⟨500, false, false⟩)
      ∧ (∀ v : PyJson, raw ≠ [] → parse (stripOuterQuotes (pyStrip raw)) = some v →
          v.truthy = true → do_POST_execute parse raw = ⟨200, true, true⟩)
      ∧ (∀ v : PyJson, raw ≠ [] → parse (stripOuterQuotes (pyStrip raw)) = some v →
          v.truthy = false → do_POST_execute parse raw = ⟨400, false, false⟩) := by
  refine ⟨?_, ?_, ?_, ?_⟩
  · intro h
    subst h
    rfl
  · intro hne hp
    simp [do_POST_execute, read_json, List.isEmpty_iff, hne, hp]
  · intro v hne hp ht
    simp [do_POST_execute, read_json, List.isEmpty_iff, hne, hp, ht]
  · intro v hne hp ht
    simp [do_POST_execute, read_json, List.isEmpty_iff, hne, hp, ht]

/-- Witness for the amended C8: the body `\x7b"actions":[]\x7d` (a
non-empty JSON object) answers 200 with `ok` and a `task_id`. -/
theorem execute_status_witness :
    do_POST_execute jsonLoadsModel
        ('\x7b' :: ("\x22actions\x22:[]".toList ++ ['\x7d'])) = ⟨200, true, true⟩ :=
  (execute_status_spec jsonLoadsModel
      ('\x7b' :: ("\x22actions\x22:[]".toList ++ ['\x7d']))).2.2.1
    (.obj [("actions", .arr [])]) (by decide) rfl rfl

end DogLLMExec
